import Mathlib

/-!
Verification of the AI accounting agent's financial-analysis core against its
specification.  The Python sources (`core_agent_engine.py`,
`conversation_handler.py`) are shallowly embedded: Python strings become
`List Char`, Python dicts with a fixed key set become functions into `Option`,
Python ints become `Int`, and float arithmetic on ratio values is modelled with
exact rationals `ℚ`.
-/

namespace AIAccounting

/-! ## String utilities (models of the Python string operations used) -/

/-- Model of Python's substring test `needle in hay` on strings. -/
def occursIn (needle : List Char) : List Char → Bool
  | [] => needle.isEmpty
  | c :: rest => needle.isPrefixOf (c :: rest) || occursIn needle rest

/-- Characters removed by Python's `str.strip()` (ASCII whitespace). -/
def isPyWsp (c : Char) : Bool :=
  c == ' ' || c == '\t' || c == '\n' || c == '\r' ||
  c == Char.ofNat 11 || c == Char.ofNat 12

/-- Model of Python's `str.strip()`. -/
def pyStrip (cs : List Char) : List Char :=
  ((cs.dropWhile isPyWsp).reverse.dropWhile isPyWsp).reverse

/-- The 26 uppercase ASCII letters. -/
def upperLetters : List Char :=
  ['A', 'B', 'C', 'D', 'E', 'F', 'G', 'H', 'I', 'J', 'K', 'L', 'M',
   'N', 'O', 'P', 'Q', 'R', 'S', 'T', 'U', 'V', 'W', 'X', 'Y', 'Z']

/-- Model of Python's `str.lower()` on the ASCII letters (the only cased
characters occurring in the program's keyword tables): an uppercase ASCII
letter is shifted down by 32 code points, everything else is unchanged. -/
def pyLowerChar (c : Char) : Char :=
  if c ∈ upperLetters then Char.ofNat (c.toNat + 32) else c

/-- Model of Python's `str.lower()`. -/
def pyLower (cs : List Char) : List Char := cs.map pyLowerChar

/-- Helper for the regex model: scan for the closing character `cl`.
`re`'s `.` does not match a newline, so the scan fails on `'\n'`.
Returns the remainder after the closing character when found. -/
def scanToClose (cl : Char) : List Char → Option (List Char)
  | [] => none
  | c :: rest => if c = cl then some rest
                 else if c = '\n' then none
                 else scanToClose cl rest

/-- Fuelled worker for `elimSpans` (fuel makes the recursion structural). -/
def elimSpansF (op cl : Char) : Nat → List Char → List Char
  | 0, cs => cs
  | Nat.succ _, [] => []
  | Nat.succ n, c :: rest =>
    if c = op then
      match scanToClose cl rest with
      | some rest2 => elimSpansF op cl n rest2
      | none => c :: elimSpansF op cl n rest
    else c :: elimSpansF op cl n rest

/-- Model of `re.sub(r'OP.*?CL', '', s)` as used on account names: every
non-greedy bracketed span is removed, an unclosed opener is kept. -/
def elimSpans (op cl : Char) (cs : List Char) : List Char :=
  elimSpansF op cl cs.length cs

/-! ## Amount parsing

`parse_financial_statements` turns `thstrm_amount` into an `int` with
`int(float(s))` after deleting commas and spaces, mapping `'0'`, `''`, `'-'`,
`'nan'` and anything that raises to `0`.  The model covers optionally signed
decimal digit strings (the DART API's number format), truncating a fractional
part toward zero exactly as `int(float(...))` does on them; exotic float
syntax and float rounding are outside the model and outside every claim. -/

/-- Numeric value of a digit string. -/
def digitsVal (cs : List Char) : Nat :=
  cs.foldl (fun a c => a * 10 + (c.toNat - 48)) 0

/-- `int(float(s))` on an optionally signed decimal literal; `none` models the
`except` branch. -/
def pyIntOfFloatLit (cs : List Char) : Option Int :=
  let sgnBody : Int × List Char :=
    match cs with
    | '+' :: t => (1, t)
    | '-' :: t => (-1, t)
    | t => (1, t)
  match sgnBody.2.splitOn '.' with
  | [ds] =>
    if ds ≠ [] ∧ ds.all Char.isDigit then some (sgnBody.1 * digitsVal ds) else none
  | [ds, fs] =>
    if (ds ≠ [] ∨ fs ≠ []) ∧ ds.all Char.isDigit ∧ fs.all Char.isDigit then
      some (sgnBody.1 * digitsVal ds)
    else none
  | _ => none

/-- The amount computation of `parse_financial_statements` (lines 330-339). -/
def parseAmount (raw : List Char) : Int :=
  let s := (raw.filter (fun c => c ≠ ',')).filter (fun c => c ≠ ' ')
  if s = [] ∨ s = ['0'] ∨ s = ['-'] ∨ s = "nan".data then 0
  else (pyIntOfFloatLit s).getD 0

/-! ## The canonical record and the normalizer -/

/-- The canonical financial fields (the values of `target_accounts`). -/
inductive Field where
  | cash_and_equivalents
  | accounts_receivable
  | inventory
  | gross_profit
  | revenue
  | operating_income
  | net_income
  | total_assets
  | total_liabilities
  | total_equity
  deriving DecidableEq

/-- A canonical record: the Python dict `financial_data`, with `none`
modelling an absent key. -/
abbrev FinMap := Field → Option Int

def emptyFin : FinMap := fun _ => none

/-- Python `financial_data[key] = amount`. -/
def FinMap.insert (m : FinMap) (k : Field) (v : Int) : FinMap :=
  fun f => if f = k then some v else m f

/-- Python `financial_data.get(key, 0)`. -/
def finGet (m : FinMap) (k : Field) : Int := (m k).getD 0

/-- The `target_accounts` synonym table, in source (insertion) order. -/
def targetAccounts : List (List Char × Field) :=
  [("현금및현금성자산".data, Field.cash_and_equivalents),
   ("매출채권".data, Field.accounts_receivable),
   ("재고자산".data, Field.inventory),
   ("매출총이익".data, Field.gross_profit),
   ("매출액".data, Field.revenue),
   ("수익(매출액)".data, Field.revenue),
   ("영업수익".data, Field.revenue),
   ("매출".data, Field.revenue),
   ("수익".data, Field.revenue),
   ("영업이익".data, Field.operating_income),
   ("영업이익(손실)".data, Field.operating_income),
   ("영업손익".data, Field.operating_income),
   ("당기순이익".data, Field.net_income),
   ("당기순이익(손실)".data, Field.net_income),
   ("연결당기순이익".data, Field.net_income),
   ("순이익".data, Field.net_income),
   ("당기순손익".data, Field.net_income),
   ("지배기업소유주지분당기순이익".data, Field.net_income),
   ("지배기업소유주지분당기순손익".data, Field.net_income),
   ("자산총계".data, Field.total_assets),
   ("총자산".data, Field.total_assets),
   ("부채총계".data, Field.total_liabilities),
   ("총부채".data, Field.total_liabilities),
   ("자본총계".data, Field.total_equity),
   ("자기자본".data, Field.total_equity),
   ("연결자본총계".data, Field.total_equity),
   ("총자본".data, Field.total_equity),
   ("지배기업소유주지분".data, Field.total_equity)]

/-- A raw DART line item (the keys used by the parser). -/
structure RawItem where
  sj_nm : List Char
  account_nm : List Char
  thstrm_amount : List Char

/-- The account-name cleaning of lines 319-327: `strip`, remove `[...]`
spans, `strip`, remove `(...)` spans, `strip`. -/
def cleanAccountName (raw : List Char) : List Char :=
  pyStrip (elimSpans '(' ')' (pyStrip (elimSpans '[' ']' (pyStrip raw))))

/-- The inner `for target_name, key in target_accounts.items()` loop of
`parse_financial_statements` (lines 341-357): exact match with a non-zero
amount assigns and breaks; otherwise a substring match in either direction
assigns (and breaks) only when the key is absent or zero and the amount is
non-zero; all other cases continue with the next synonym. -/
def matchLoop (name : List Char) (amount : Int) :
    List (List Char × Field) → FinMap → FinMap
  | [], m => m
  | (tn, key) :: rest, m =>
    if name = tn then
      if amount ≠ 0 then m.insert key amount
      else matchLoop name amount rest m
    else if occursIn tn name || occursIn name tn then
      if m key = none ∨ m key = some 0 then
        if amount ≠ 0 then m.insert key amount
        else matchLoop name amount rest m
      else matchLoop name amount rest m
    else matchLoop name amount rest m

/-- Processing of one relevant line item. -/
def processItem (m : FinMap) (it : RawItem) : FinMap :=
  matchLoop (cleanAccountName it.account_nm) (parseAmount it.thstrm_amount)
    targetAccounts m

/-- The statement filter of lines 312-316. -/
def relevantStatement (sj : List Char) : Bool :=
  sj = "손익계산서".data || sj = "재무상태표".data || sj = "포괄손익계산서".data

/-- Model of `parse_financial_statements` (lines 259-378): filter the income
statement / balance sheet items, then run the matching loop over them in
order starting from the empty dict. -/
def parseFinancialStatements (items : List RawItem) : FinMap :=
  (items.filter (fun it => relevantStatement (pyStrip it.sj_nm))).foldl
    processItem emptyFin

/-! ## Cash-flow record -/

/-- Keys of the `cash_flow_data` dict. -/
inductive CFField where
  | operating_cash_flow
  | investing_cash_flow
  | financing_cash_flow
  deriving DecidableEq

abbrev CFMap := CFField → Option Int

def emptyCF : CFMap := fun _ => none

def CFMap.insert (m : CFMap) (k : CFField) (v : Int) : CFMap :=
  fun f => if f = k then some v else m f

/-- Python `cash_flow_data.get(key, 0)`. -/
def cfGet (m : CFMap) (k : CFField) : Int := (m k).getD 0

/-! ## Ratio engine (`_calculate_basic_ratios`, lines 696-729) -/

/-- `safe_divide(a, b)`; the `default` parameter is `0` at every call site. -/
def safeDivide (a b : ℚ) : ℚ := if b ≠ 0 then a / b else 0

/-- The `ratios` dict computed by `_calculate_basic_ratios`.  The growth
entries exist only when `multi_year_data` is truthy with a `'2023'` key,
modelled by `Option`. -/
structure BasicRatios where
  ROE : ℚ
  ROA : ℚ
  operatingMargin : ℚ
  netMargin : ℚ
  debtToEquity : ℚ
  equityToAssets : ℚ
  salesGrowth : Option ℚ
  netIncomeGrowth : Option ℚ

/-- Model of `_calculate_basic_ratios`: every division goes through
`safe_divide` with default `0`, so the function is total (no exception). -/
def calculateBasicRatios (fd : FinMap) (prev2023 : Option FinMap) : BasicRatios :=
  let revenue : ℚ := (finGet fd Field.revenue : Int)
  let operating_income : ℚ := (finGet fd Field.operating_income : Int)
  let net_income : ℚ := (finGet fd Field.net_income : Int)
  let total_assets : ℚ := (finGet fd Field.total_assets : Int)
  let total_liabilities : ℚ := (finGet fd Field.total_liabilities : Int)
  let total_equity : ℚ := (finGet fd Field.total_equity : Int)
  { ROE := safeDivide net_income total_equity * 100
    ROA := safeDivide net_income total_assets * 100
    operatingMargin := safeDivide operating_income revenue * 100
    netMargin := safeDivide net_income revenue * 100
    debtToEquity := safeDivide total_liabilities total_equity * 100
    equityToAssets := safeDivide total_equity total_assets * 100
    salesGrowth := prev2023.map (fun p =>
      safeDivide (revenue - (finGet p Field.revenue : Int))
        ((finGet p Field.revenue : Int)) * 100)
    netIncomeGrowth := prev2023.map (fun p =>
      safeDivide (net_income - (finGet p Field.net_income : Int))
        ((finGet p Field.net_income : Int)) * 100) }

/-! ## Fraud indicator engine (lines 731-762) -/

/-- The three indicator entries computed by
`_calculate_basic_fraud_indicators` (the dict additionally stores the
aggregate score, computed by `calculateFraudRiskScore` below). -/
structure FraudIndicators where
  cashFlowToNetIncome : ℚ
  receivablesToRevenue : ℚ
  positiveIncomeNegativeCashflow : Bool

/-- Model of `_calculate_basic_fraud_indicators` (lines 731-745). -/
def calculateBasicFraudIndicators (fd : FinMap) (cf : CFMap) : FraudIndicators :=
  let revenue : Int := finGet fd Field.revenue
  let net_income : Int := finGet fd Field.net_income
  let receivables : Int := finGet fd Field.accounts_receivable
  let operating_cash_flow : Int := cfGet cf CFField.operating_cash_flow
  { cashFlowToNetIncome :=
      if net_income ≠ 0 then (operating_cash_flow : ℚ) / (net_income : ℚ) else 0
    receivablesToRevenue :=
      if revenue ≠ 0 then (receivables : ℚ) / (revenue : ℚ) * 100 else 0
    positiveIncomeNegativeCashflow :=
      decide (net_income > 0 ∧ operating_cash_flow < 0) }

/-- Model of `_calculate_fraud_risk_score` (lines 747-762): +30, +25, +25
penalties, then `min(score, 100)`.  (The `.get` defaults `1`, `0`, `False` in
the source never fire: the caller always stores all three keys.) -/
def calculateFraudRiskScore (ind : FraudIndicators) : Int :=
  let s1 : Int := if ind.cashFlowToNetIncome < 1 / 2 then 30 else 0
  let s2 : Int := s1 + (if ind.receivablesToRevenue > 25 then 25 else 0)
  let s3 : Int := s2 + (if ind.positiveIncomeNegativeCashflow then 25 else 0)
  min s3 100

/-! ## Consensus grade extraction (`_extract_grade_from_consensus`, lines 686-694)

The source computes `consensus_upper = consensus.upper()` but every
membership test is performed on the original `consensus` string, so grade
recognition is case-sensitive. -/

/-- The three fixed marker patterns for a grade letter `g`:
`f"{g}등급"`, `f"등급 {g}"`, `f"등급:{g}"`. -/
def gradeMarkerOccurs (g : Char) (s : List Char) : Bool :=
  occursIn (g :: "등급".data) s ||
  occursIn ("등급 ".data ++ [g]) s ||
  occursIn ("등급:".data ++ [g]) s

/-- The `for grade in ['S', 'A', 'B', 'C', 'D']` loop body. -/
def extractGradeLoop (s : List Char) : List Char → Char
  | [] => 'B'
  | g :: rest => if gradeMarkerOccurs g s then g else extractGradeLoop s rest

/-- Model of `_extract_grade_from_consensus`: scan the grades in order
S, A, B, C, D and return the first whose marker occurs, defaulting to `'B'`. -/
def extractGradeFromConsensus (s : List Char) : Char :=
  extractGradeLoop s ['S', 'A', 'B', 'C', 'D']

/-! ## Intent classifier (`conversation_handler.py`) -/

/-- The `query_patterns` table of `_initialize_query_patterns`
(lines 23-74), in source (registration) order: 8 fixed categories. -/
def queryPatterns : List (List Char × List (List Char)) :=
  [("full_analysis".data,
    ["결산".data, "감사".data, "분석해줘".data, "검토해줘".data, "분석하자".data,
     "결산처리".data, "전체분석".data, "종합분석".data, "완전분석".data]),
   ("ratio_query".data,
    ["비율".data, "ratio".data, "ROE".data, "ROA".data, "부채비율".data,
     "유동비율".data, "영업이익률".data, "순이익률".data, "자기자본비율".data,
     "매출성장률".data, "회전율".data]),
   ("fraud_query".data,
    ["부정".data, "이상".data, "특이".data, "위험".data, "fraud".data,
     "의심".data, "문제".data, "조작".data, "부정회계".data, "회계조작".data]),
   ("comparison_query".data,
    ["비교".data, "대비".data, "vs".data, "차이".data, "compared".data,
     "업계평균".data, "경쟁사".data, "작년".data, "전년".data, "동종업계".data]),
   ("visualization_query".data,
    ["그래프".data, "차트".data, "시각화".data, "graph".data, "chart".data,
     "plot".data, "보여줘".data, "그림".data, "도표".data, "막대그래프".data,
     "선그래프".data]),
   ("explanation_query".data,
    ["설명".data, "이유".data, "왜".data, "어떻게".data, "explain".data,
     "why".data, "how".data, "자세히".data, "구체적으로".data, "detail".data]),
   ("data_source_query".data,
    ["언제".data, "몇년".data, "년도".data, "데이터".data, "자료".data,
     "출처".data, "source".data, "기준".data, "시점".data, "when".data]),
   ("report_query".data,
    ["보고서".data, "문서".data, "정리".data, "요약".data, "report".data,
     "document".data, "파일".data, "저장".data, "다운로드".data, "출력".data,
     "내보내기".data, "export".data, "워드".data, "엑셀".data, "pdf".data,
     "docx".data, "xlsx".data, "word".data, "excel".data])]

/-- `sum(1 for keyword in keywords if keyword in user_input_lower)`. -/
def keywordScore (kws : List (List Char)) (text : List Char) : Nat :=
  kws.countP (fun kw => occursIn kw text)

/-- Python's `max(scores.keys(), key=lambda x: scores[x])` starting from a
first candidate: the champion is replaced only on a strictly greater value,
so of equal maxima the first encountered wins. -/
def selectMax (k : List Char) (v : Nat) : List (List Char × Nat) → List Char
  | [] => k
  | (k2, v2) :: rest => if v2 > v then selectMax k2 v2 rest else selectMax k v rest

/-- Model of `_classify_query_type` (lines 168-183): lower-case the input,
keep the categories with a positive keyword count, return the one with the
maximum count (first registered wins ties), or `"general_query"` when every
category scores zero. -/
def classifyQueryType (input : List Char) : List Char :=
  let lower := pyLower input
  let scores := queryPatterns.filterMap (fun p =>
    let s := keywordScore p.2 lower
    if s > 0 then some (p.1, s) else none)
  match scores with
  | [] => "general_query".data
  | (k, v) :: rest => selectMax k v rest

/-- Maximum of the score values of a score list (0 when empty). -/
def listMaxVal (l : List (List Char × Nat)) : Nat :=
  l.foldr (fun p acc => max p.2 acc) 0

/-- Specification-style restatement of the classifier, following the spec's
words: score all categories, take the best score, return the first category
attaining it when it is positive, else the fallback category. -/
def classifyQueryTypeSpec (input : List Char) : List Char :=
  let lower := pyLower input
  let scores := queryPatterns.map (fun p => (p.1, keywordScore p.2 lower))
  let best := listMaxVal scores
  if best = 0 then "general_query".data
  else ((scores.find? (fun p => p.2 == best)).map Prod.fst).getD "general_query".data

/-! ## Context cache (lines 870-895)

`save_analysis_context` stores, under the company name, a dict holding the
creation timestamp, the full `analysis_data`, a copy of the discussion log
and (as convenience projections of `analysis_data`) its `ratios`,
`financial_data` and `cash_flow_data` entries; `get_analysis_context` is a
plain `dict.get`; `clear_old_contexts` deletes every entry whose timestamp
is strictly older than `now - hours`.  Time is modelled in seconds. -/

structure StoredContext (α β : Type) where
  timestamp : Int
  analysisData : α
  a2aLog : β

/-- `self.conversation_memory`: a dict from company name to stored context. -/
abbrev ConversationMemory (α β : Type) := String → Option (StoredContext α β)

def emptyMemory (α β : Type) : ConversationMemory α β := fun _ => none

/-- Model of `save_analysis_context` (lines 870-883): overwrites any existing
entry for the company. -/
def saveAnalysisContext {α β : Type} (mem : ConversationMemory α β)
    (now : Int) (company : String) (d : α) (lg : β) : ConversationMemory α β :=
  fun c => if c = company then some ⟨now, d, lg⟩ else mem c

/-- Model of `get_analysis_context`: `self.conversation_memory.get(name)`. -/
def getAnalysisContext {α β : Type} (mem : ConversationMemory α β)
    (company : String) : Option (StoredContext α β) :=
  mem company

/-- Model of `clear_old_contexts` (lines 885-895): remove every entry with
`timestamp < now - timedelta(hours=hours)`. -/
def clearOldContexts {α β : Type} (mem : ConversationMemory α β)
    (now : Int) (hours : Int) : ConversationMemory α β :=
  fun c =>
    match mem c with
    | some ctx => if ctx.timestamp < now - hours * 3600 then none else some ctx
    | none => none

/-! ## Concrete sample inputs used in the theorems below -/

/-- A DART income-statement line item: exact label `매출액`, amount 100. -/
def itemRevenueA : RawItem := ⟨"손익계산서".data, "매출액".data, "100".data⟩

/-- A second line item with the same exact label `매출액`, amount 200. -/
def itemRevenueB : RawItem := ⟨"손익계산서".data, "매출액".data, "200".data⟩

/-- A canonical record triggering all three fraud penalties:
net income 100, receivables 30, revenue 100. -/
def fraudFin : FinMap := fun f =>
  match f with
  | Field.net_income => some 100
  | Field.accounts_receivable => some 30
  | Field.revenue => some 100
  | _ => none

/-- A cash-flow record with operating cash flow -60. -/
def fraudCF : CFMap := fun f =>
  match f with
  | CFField.operating_cash_flow => some (-60)
  | _ => none

/-- The spec's end-to-end example record: revenue 1,000,000, net income
100,000, total equity 500,000, total liabilities 300,000. -/
def ratioFin : FinMap := fun f =>
  match f with
  | Field.revenue => some 1000000
  | Field.net_income => some 100000
  | Field.total_equity => some 500000
  | Field.total_liabilities => some 300000
  | _ => none

/-- A record in which `net_income` is already bound to the non-zero 500. -/
def boundNetIncome : FinMap := fun f =>
  match f with
  | Field.net_income => some 500
  | _ => none

/-- A conversation memory holding one entry created at time 0. -/
def memOld : ConversationMemory Nat Nat :=
  saveAnalysisContext (emptyMemory Nat Nat) 0 "현대자동차" 1 2

/-- `memOld` extended with an entry created at time 4000. -/
def memTwo : ConversationMemory Nat Nat :=
  saveAnalysisContext memOld 4000 "삼성전자" 3 4

/-! # Theorems -/

/-! ## C1: fraud risk score range and the all-three-penalties value -/

/-- C1 (counterexample): on a concrete record triggering every penalty
(`cash_flow_to_net_income = -3/5 < 0.5`, `receivables_to_revenue = 30 > 25`,
positive income with negative operating cash flow), the aggregate risk score
is not 100 — the penalties 30+25+25 only sum to 80, so the claimed value 100
is wrong. -/
theorem c1_counterexample :
    (calculateBasicFraudIndicators fraudFin fraudCF).cashFlowToNetIncome < 1 / 2 ∧
    (calculateBasicFraudIndicators fraudFin fraudCF).receivablesToRevenue > 25 ∧
    (calculateBasicFraudIndicators fraudFin fraudCF).positiveIncomeNegativeCashflow = true ∧
    calculateFraudRiskScore (calculateBasicFraudIndicators fraudFin fraudCF) ≠ 100 := by
  norm_num [calculateFraudRiskScore, calculateBasicFraudIndicators, finGet, cfGet,
    fraudFin, fraudCF]

/-- C1 (amended): for every combination of fraud indicator inputs the
aggregate risk score lies in [0,100]; when all three penalty conditions hold
simultaneously the score equals 80 (= 30+25+25; the clamp to 100 does not
engage). -/
theorem c1_risk_score_range (ind : FraudIndicators) :
    0 ≤ calculateFraudRiskScore ind ∧ calculateFraudRiskScore ind ≤ 100 ∧
    (ind.cashFlowToNetIncome < 1 / 2 → ind.receivablesToRevenue > 25 →
      ind.positiveIncomeNegativeCashflow = true →
      calculateFraudRiskScore ind = 80) := by
  unfold calculateFraudRiskScore
  refine ⟨?_, ?_, ?_⟩ <;> split_ifs <;> simp_all

/-- C1 witness: the amended theorem applied to the all-three-penalties
record gives score 80. -/
theorem c1_witness :
    calculateFraudRiskScore (calculateBasicFraudIndicators fraudFin fraudCF) = 80 :=
  (c1_risk_score_range (calculateBasicFraudIndicators fraudFin fraudCF)).2.2
    (by norm_num [calculateBasicFraudIndicators, finGet, cfGet, fraudFin, fraudCF])
    (by norm_num [calculateBasicFraudIndicators, finGet, cfGet, fraudFin, fraudCF])
    (by norm_num [calculateBasicFraudIndicators, finGet, cfGet, fraudFin, fraudCF])

/-! ## C3: the cash-flow-to-net-income indicator and its zero default -/

/-- C3 (counterexample): with net income 0 and operating cash flow -60, the
indicator is 0, not the claimed default 1. -/
theorem c3_counterexample :
    finGet emptyFin Field.net_income = 0 ∧
    cfGet fraudCF CFField.operating_cash_flow ≠ 0 ∧
    (calculateBasicFraudIndicators emptyFin fraudCF).cashFlowToNetIncome = 0 ∧
    (calculateBasicFraudIndicators emptyFin fraudCF).cashFlowToNetIncome ≠ 1 := by
  refine ⟨rfl, by decide, ?_, ?_⟩ <;>
    norm_num [calculateBasicFraudIndicators, finGet, cfGet, fraudCF, emptyFin]

/-- C3 (amended): for every canonical record and cash-flow record,
`cash_flow_to_net_income` is operating cash flow divided by net income when
net income is non-zero, and the default 0 (not 1) when net income is 0. -/
theorem c3_cash_flow_indicator (fd : FinMap) (cf : CFMap) :
    (finGet fd Field.net_income ≠ 0 →
      (calculateBasicFraudIndicators fd cf).cashFlowToNetIncome =
        (cfGet cf CFField.operating_cash_flow : ℚ) / (finGet fd Field.net_income : ℚ)) ∧
    (finGet fd Field.net_income = 0 →
      (calculateBasicFraudIndicators fd cf).cashFlowToNetIncome = 0) := by
  unfold calculateBasicFraudIndicators
  constructor <;> intro h <;> simp [h]

/-- C3 witness: the amended theorem applied to the sample records: division
in the non-zero case, 0 in the zero case. -/
theorem c3_witness :
    ((calculateBasicFraudIndicators ratioFin fraudCF).cashFlowToNetIncome =
      (cfGet fraudCF CFField.operating_cash_flow : ℚ) / (finGet ratioFin Field.net_income : ℚ)) ∧
    ((calculateBasicFraudIndicators emptyFin fraudCF).cashFlowToNetIncome = 0) :=
  ⟨(c3_cash_flow_indicator ratioFin fraudCF).1 (by decide),
   (c3_cash_flow_indicator emptyFin fraudCF).2 rfl⟩

/-! ## C4: the ratio engine's safe-divide semantics and the worked example -/

/-- C4: each ratio follows its reference definition with safe divide
defaulting to 0 (equity 0 gives ROE 0 and debt ratio 0; revenue 0 gives both
margins 0); the model is a total function, so no exception is raised; and on
the spec's example record it yields ROE 20, debt ratio 60, net margin 10. -/
theorem c4_ratio_engine (fd : FinMap) :
    ((finGet fd Field.total_equity = 0 →
        (calculateBasicRatios fd none).ROE = 0 ∧
        (calculateBasicRatios fd none).debtToEquity = 0) ∧
     (finGet fd Field.total_equity ≠ 0 →
        (calculateBasicRatios fd none).ROE =
          (finGet fd Field.net_income : ℚ) / (finGet fd Field.total_equity : ℚ) * 100 ∧
        (calculateBasicRatios fd none).debtToEquity =
          (finGet fd Field.total_liabilities : ℚ) / (finGet fd Field.total_equity : ℚ) * 100) ∧
     (finGet fd Field.revenue = 0 →
        (calculateBasicRatios fd none).netMargin = 0 ∧
        (calculateBasicRatios fd none).operatingMargin = 0) ∧
     (finGet fd Field.revenue ≠ 0 →
        (calculateBasicRatios fd none).netMargin =
          (finGet fd Field.net_income : ℚ) / (finGet fd Field.revenue : ℚ) * 100 ∧
        (calculateBasicRatios fd none).operatingMargin =
          (finGet fd Field.operating_income : ℚ) / (finGet fd Field.revenue : ℚ) * 100)) ∧
    ((calculateBasicRatios ratioFin none).ROE = 20 ∧
     (calculateBasicRatios ratioFin none).debtToEquity = 60 ∧
     (calculateBasicRatios ratioFin none).netMargin = 10) := by
  constructor
  · refine ⟨fun h => ?_, fun h => ?_, fun h => ?_, fun h => ?_⟩ <;>
      constructor <;>
      simp [calculateBasicRatios, safeDivide, h, Int.cast_eq_zero]
  · refine ⟨?_, ?_, ?_⟩ <;>
      norm_num [calculateBasicRatios, safeDivide, finGet, ratioFin]

/-- C4 witness: the safe-divide cases of the theorem at concrete records
(the all-absent record for the zero cases, the example record otherwise). -/
theorem c4_witness :
    (calculateBasicRatios emptyFin none).ROE = 0 ∧
    (calculateBasicRatios ratioFin none).netMargin =
      (finGet ratioFin Field.net_income : ℚ) / (finGet ratioFin Field.revenue : ℚ) * 100 :=
  ⟨(((c4_ratio_engine emptyFin).1.1) rfl).1,
   (((c4_ratio_engine ratioFin).1.2.2.2) (by decide)).1⟩

/-! ## C8: the analysis-context cache -/

/-- C8: a put followed by a get for the same company returns exactly the
stored object, overwriting any prior entry (the starting memory is
arbitrary); other companies are untouched; and after eviction an entry
survives exactly when its creation timestamp is not older than
`now - hours`, so evicted entries read as not-found and newer entries stay
present. -/
theorem c8_cache_put_get_evict {α β : Type} (mem : ConversationMemory α β)
    (now now2 : Int) (company : String) (d : α) (lg : β) (hours : Int) :
    getAnalysisContext (saveAnalysisContext mem now company d lg) company =
      some ⟨now, d, lg⟩ ∧
    (∀ c2, c2 ≠ company →
      getAnalysisContext (saveAnalysisContext mem now company d lg) c2 =
        getAnalysisContext mem c2) ∧
    (∀ c2 e, getAnalysisContext (clearOldContexts mem now2 hours) c2 = some e ↔
      (getAnalysisContext mem c2 = some e ∧
       ¬ e.timestamp < now2 - hours * 3600)) := by
  refine ⟨by simp [getAnalysisContext, saveAnalysisContext],
          fun c2 h => by simp [getAnalysisContext, saveAnalysisContext, h],
          fun c2 e => ?_⟩
  unfold getAnalysisContext clearOldContexts
  cases hm : mem c2 with
  | none => simp
  | some ctx =>
    by_cases ht : ctx.timestamp < now2 - hours * 3600
    · simp only [ht, if_pos]
      constructor
      · intro h; exact absurd h (by simp)
      · rintro ⟨h1, h2⟩
        cases h1; exact absurd ht h2
    · simp only [ht, if_neg, not_false_iff]
      constructor
      · intro h; cases h; exact ⟨rfl, ht⟩
      · rintro ⟨h1, _⟩; exact h1

/-- C8 witness: the theorem at a concrete two-entry memory: the overwrite
round trip, survival of the newer entry after eviction, and not-found for
the evicted one. -/
theorem c8_witness :
    getAnalysisContext (saveAnalysisContext memTwo 9 "현대자동차" 7 8) "현대자동차" =
      some ⟨9, 7, 8⟩ ∧
    getAnalysisContext (clearOldContexts memTwo 4200 1) "삼성전자" =
      some ⟨4000, 3, 4⟩ ∧
    getAnalysisContext (clearOldContexts memTwo 4200 1) "현대자동차" = none := by
  refine ⟨(c8_cache_put_get_evict memTwo 9 4200 "현대자동차" 7 8 1).1, ?_, ?_⟩
  · exact ((c8_cache_put_get_evict memTwo 9 4200 "현대자동차" 7 8 1).2.2 "삼성전자"
      ⟨4000, 3, 4⟩).mpr ⟨rfl, by decide⟩
  · cases hg : getAnalysisContext (clearOldContexts memTwo 4200 1) "현대자동차" with
    | none => rfl
    | some e =>
      have h := ((c8_cache_put_get_evict memTwo 9 4200 "현대자동차" 7 8 1).2.2
        "현대자동차" e).mp hg
      have h0 : getAnalysisContext memTwo "현대자동차" =
          some (⟨0, 1, 2⟩ : StoredContext Nat Nat) := rfl
      rw [h0] at h
      obtain ⟨h1, h2⟩ := h
      cases h1
      exact absurd (by decide) h2

/-! ## C2: presence of canonical fields in the normalizer output -/

/-- Invariant of the parsed record: every stored value is non-zero (the
matching loop only assigns when the parsed amount is non-zero). -/
def NonzeroValues (m : FinMap) : Prop := ∀ f v, m f = some v → v ≠ 0

theorem insert_nonzero {m : FinMap} {k : Field} {a : Int} (ha : a ≠ 0)
    (hm : NonzeroValues m) : NonzeroValues (m.insert k a) := by
  intro f v hv
  unfold FinMap.insert at hv
  by_cases hf : f = k
  · rw [if_pos hf] at hv
    cases hv
    exact ha
  · rw [if_neg hf] at hv
    exact hm f v hv

theorem matchLoop_nonzero (name : List Char) (amt : Int) :
    ∀ (pairs : List (List Char × Field)) (m : FinMap),
      NonzeroValues m → NonzeroValues (matchLoop name amt pairs m) := by
  intro pairs
  induction pairs with
  | nil => intro m hm; exact hm
  | cons p rest ih =>
    intro m hm
    obtain ⟨tn, key⟩ := p
    simp only [matchLoop]
    split_ifs with h1 h2 h3 h4 h5
    · exact insert_nonzero h2 hm
    · exact ih m hm
    · exact insert_nonzero h5 hm
    · exact ih m hm
    · exact ih m hm
    · exact ih m hm

theorem foldl_nonzero :
    ∀ (items : List RawItem) (m : FinMap),
      NonzeroValues m → NonzeroValues (items.foldl processItem m) := by
  intro items
  induction items with
  | nil => intro m hm; exact hm
  | cons it rest ih =>
    intro m hm
    rw [List.foldl_cons]
    exact ih (processItem m it) (matchLoop_nonzero _ _ targetAccounts m hm)

/-- C2 (counterexample): the normalizer's output does not contain every
canonical field as a present key: on the empty input every field is absent,
and on an input binding only `매출액` the `net_income` key is absent rather
than explicitly 0. -/
theorem c2_counterexample :
    parseFinancialStatements [] Field.revenue = none ∧
    parseFinancialStatements [itemRevenueA] Field.net_income = none ∧
    parseFinancialStatements [itemRevenueA] Field.net_income ≠ some 0 := by
  refine ⟨rfl, ?_, ?_⟩ <;> decide

/-- C2 (amended): a canonical field that matched no line item is an absent
key of the output record (so a defaulted read yields 0), and a present key
is never the explicit value 0 — the record is never partially populated with
zero entries. -/
theorem c2_unmatched_fields_absent (items : List RawItem) (f : Field) :
    (∀ v : Int, parseFinancialStatements items f = some v → v ≠ 0) ∧
    (parseFinancialStatements items f = none →
      finGet (parseFinancialStatements items) f = 0) := by
  constructor
  · intro v hv
    have h0 : NonzeroValues emptyFin := by
      intro g w h
      simp [emptyFin] at h
    exact foldl_nonzero _ emptyFin h0 f v hv
  · intro h
    unfold finGet
    rw [h]
    rfl

/-- C2 witness: the amended theorem at a one-item input (the bound revenue
value 100 is non-zero) and at the empty input (absent key reads as 0). -/
theorem c2_witness :
    (100 : Int) ≠ 0 ∧ finGet (parseFinancialStatements []) Field.revenue = 0 :=
  ⟨(c2_unmatched_fields_absent [itemRevenueA] Field.revenue).1 100 (by decide),
   (c2_unmatched_fields_absent [] Field.revenue).2 rfl⟩

/-! ## C5: matching priority and overwriting -/

theorem matchLoop_no_exact (name : List Char) (amt : Int) (f : Field) (v : Int) :
    ∀ (pairs : List (List Char × Field)) (m : FinMap),
      m f = some v → v ≠ 0 →
      (∀ p ∈ pairs, p.2 = f → name ≠ p.1) →
      matchLoop name amt pairs m f = some v := by
  intro pairs
  induction pairs with
  | nil => intro m hv _ _; exact hv
  | cons p rest ih =>
    intro m hv hnz hex
    obtain ⟨tn, key⟩ := p
    have hex_rest : ∀ q ∈ rest, q.2 = f → name ≠ q.1 :=
      fun q hq => hex q (List.mem_cons_of_mem _ hq)
    simp only [matchLoop]
    split_ifs with h1 h2 h3 h4 h5
    · have hkf : key ≠ f := fun hk =>
        hex (tn, key) (List.mem_cons_self _ _) hk h1
      simp only [FinMap.insert]
      rw [if_neg (fun hf => hkf hf.symm)]
      exact hv
    · exact ih m hv hnz hex_rest
    · have hkf : key ≠ f := by
        intro hk
        cases hk
        rcases h4 with h | h
        · rw [hv] at h
          exact Option.noConfusion h
        · rw [hv] at h
          injection h with h0
          exact hnz h0
      simp only [FinMap.insert]
      rw [if_neg (fun hf => hkf hf.symm)]
      exact hv
    · exact ih m hv hnz hex_rest
    · exact ih m hv hnz hex_rest
    · exact ih m hv hnz hex_rest

/-- C5 (counterexample): two line items with the same exact label `매출액`
(amounts 100 then 200).  The first exact non-zero match binds
`revenue := 100`, but the later exact match overwrites it with 200 — so a
later line item does overwrite a field already bound by an earlier non-zero
exact match, contradicting the claim's final clause (which predicts 100). -/
theorem c5_counterexample :
    parseFinancialStatements [itemRevenueA] Field.revenue = some 100 ∧
    parseFinancialStatements [itemRevenueA, itemRevenueB] Field.revenue = some 200 ∧
    ¬ parseFinancialStatements [itemRevenueA, itemRevenueB] Field.revenue = some 100 := by
  refine ⟨?_, ?_, ?_⟩ <;> decide

theorem foldl_no_exact (f : Field) (v : Int) :
    ∀ (items : List RawItem) (m : FinMap),
      m f = some v → v ≠ 0 →
      (∀ it ∈ items, ∀ p ∈ targetAccounts, p.2 = f →
        cleanAccountName it.account_nm ≠ p.1) →
      (items.foldl processItem m) f = some v := by
  intro items
  induction items with
  | nil => intro m hv _ _; exact hv
  | cons it rest ih =>
    intro m hv hnz hex
    rw [List.foldl_cons]
    exact ih (processItem m it)
      (matchLoop_no_exact _ _ f v targetAccounts m hv hnz
        (fun p hp => hex it (List.mem_cons_self _ _) p hp))
      hnz
      (fun it2 h2 => hex it2 (List.mem_cons_of_mem _ h2))

/-- C5 (amended): a field bound to a non-zero value is protected from
substring (either-direction) matches: processing any further line items none
of whose cleaned account names is an exact synonym of the field leaves the
binding unchanged.  (Only a later exact match with a non-zero amount can
overwrite it, as the counterexample shows.) -/
theorem c5_no_substring_overwrite (items : List RawItem) (m : FinMap)
    (f : Field) (v : Int) (hv : m f = some v) (hnz : v ≠ 0)
    (hex : ∀ it ∈ items, ∀ p ∈ targetAccounts, p.2 = f →
      cleanAccountName it.account_nm ≠ p.1) :
    (items.foldl processItem m) f = some v :=
  foldl_no_exact f v items m hv hnz hex

/-- C5 witness: a record with `net_income` bound to 500 is unchanged by a
revenue line item (whose label is no exact synonym of `net_income`). -/
theorem c5_witness :
    ([itemRevenueA].foldl processItem boundNetIncome) Field.net_income = some 500 :=
  c5_no_substring_overwrite [itemRevenueA] boundNetIncome Field.net_income 500
    rfl (by decide) (by decide)

/-! ## C6 and C10: consensus grade extraction -/

theorem extractGradeLoop_eq_find (s : List Char) :
    ∀ gs : List Char, extractGradeLoop s gs =
      ((gs.find? (fun g => gradeMarkerOccurs g s)).getD 'B') := by
  intro gs
  induction gs with
  | nil => rfl
  | cons g rest ih =>
    by_cases h : gradeMarkerOccurs g s
    · simp [extractGradeLoop, h, List.find?_cons_of_pos]
    · have hb : gradeMarkerOccurs g s = false := by
        cases hg : gradeMarkerOccurs g s
        · rfl
        · exact absurd hg h
      simp [extractGradeLoop, hb, List.find?_cons_of_neg, ih]

/-- C6: the consensus extractor scans the grades in the fixed order
S, A, B, C, D and returns the first grade with a marker-pattern occurrence
(`find?` over the ordered list), defaulting to grade B; a text containing
`등급:A` (the Korean rendering of "grade:A") yields A, and a text with no
marker yields B. -/
theorem c6_grade_scan_order :
    (∀ s : List Char, extractGradeFromConsensus s =
      (((['S', 'A', 'B', 'C', 'D'] : List Char).find?
        (fun g => gradeMarkerOccurs g s)).getD 'B')) ∧
    extractGradeFromConsensus "최종 등급:A 입니다".data = 'A' ∧
    extractGradeFromConsensus "결론 없음".data = 'B' :=
  ⟨fun s => extractGradeLoop_eq_find s _, by decide, by decide⟩

/-- C10: grade recognition is case-sensitive (the uppercased copy computed
by the source is never used in the membership tests): any text in which no
marker pattern occurs — in particular one whose only markers are lowercase,
such as `c등급` — yields the default B, while the uppercase `C등급` marker is
recognized as grade C. -/
theorem c10_case_sensitive_grades (s : List Char)
    (h : ∀ g ∈ (['S', 'A', 'B', 'C', 'D'] : List Char),
      gradeMarkerOccurs g s = false) :
    extractGradeFromConsensus s = 'B' ∧
    extractGradeFromConsensus "c등급".data = 'B' ∧
    extractGradeFromConsensus "C등급".data = 'C' := by
  refine ⟨?_, by decide, by decide⟩
  have hS := h 'S' (by decide)
  have hA := h 'A' (by decide)
  have hB := h 'B' (by decide)
  have hC := h 'C' (by decide)
  have hD := h 'D' (by decide)
  simp [extractGradeFromConsensus, extractGradeLoop, hS, hA, hB, hC, hD]

/-- C10 witness: the theorem applied to the lowercase-marked text `c등급`,
whose uppercase marker patterns all fail to occur. -/
theorem c10_witness :
    extractGradeFromConsensus "c등급".data = 'B' ∧
    extractGradeFromConsensus "c등급".data = 'B' ∧
    extractGradeFromConsensus "C등급".data = 'C' :=
  c10_case_sensitive_grades "c등급".data (by decide)

/-! ## C9: uppercase keywords can never match the lower-cased query -/

theorem pyLowerChar_ne_R (c : Char) : pyLowerChar c ≠ 'R' := by
  by_cases h : c ∈ upperLetters
  · simp only [upperLetters, List.mem_cons, List.not_mem_nil, or_false] at h
    rcases h with rfl | rfl | rfl | rfl | rfl | rfl | rfl | rfl | rfl | rfl |
      rfl | rfl | rfl | rfl | rfl | rfl | rfl | rfl | rfl | rfl | rfl | rfl |
      rfl | rfl | rfl | rfl <;> decide
  · rw [pyLowerChar, if_neg h]
    intro hc
    subst hc
    exact h (by decide)

theorem occursIn_R_lower (rest : List Char) :
    ∀ s : List Char, occursIn ('R' :: rest) (pyLower s) = false := by
  intro s
  induction s with
  | nil => rfl
  | cons c t ih =>
    have hne : (('R' : Char) == pyLowerChar c) = false :=
      beq_eq_false_iff_ne.mpr (Ne.symm (pyLowerChar_ne_R c))
    simp only [pyLower, List.map_cons] at *
    simp [occursIn, List.isPrefixOf, hne, ih]

/-- C9: the classifier lower-cases the input but matches keywords
case-sensitively, so the uppercase keywords `ROE` and `ROA` of the ratio
category occur in no lower-cased text and always contribute 0 to its score;
the input consisting solely of `ROE` therefore falls through to the
fallback `general_query` category instead of the ratio category. -/
theorem c9_uppercase_keywords_dead (s : List Char) :
    occursIn "ROE".data (pyLower s) = false ∧
    occursIn "ROA".data (pyLower s) = false ∧
    classifyQueryType "ROE".data = "general_query".data := by
  refine ⟨?_, ?_, by decide⟩
  · have h : "ROE".data = 'R' :: ['O', 'E'] := rfl
    rw [h]
    exact occursIn_R_lower ['O', 'E'] s
  · have h : "ROA".data = 'R' :: ['O', 'A'] := rfl
    rw [h]
    exact occursIn_R_lower ['O', 'A'] s

/-! ## C7: intent classification -/

theorem listMaxVal_nil : listMaxVal [] = 0 := rfl

theorem listMaxVal_cons (p : List Char × Nat) (t : List (List Char × Nat)) :
    listMaxVal (p :: t) = max p.2 (listMaxVal t) := rfl

theorem listMaxVal_attained {l : List (List Char × Nat)}
    (h : listMaxVal l ≠ 0) : ∃ p ∈ l, p.2 = listMaxVal l := by
  induction l with
  | nil => exact absurd rfl h
  | cons q t ih =>
    rw [listMaxVal_cons] at h ⊢
    by_cases hq : listMaxVal t ≤ q.2
    · exact ⟨q, List.mem_cons_self _ _, (Nat.max_eq_left hq).symm⟩
    · push_neg at hq
      have hL : listMaxVal t ≠ 0 := by omega
      obtain ⟨p, hp, hpe⟩ := ih hL
      refine ⟨p, List.mem_cons_of_mem _ hp, ?_⟩
      rw [hpe, Nat.max_eq_right (le_of_lt hq)]

theorem filter_pos_nil_of_max_zero {l : List (List Char × Nat)}
    (h : listMaxVal l = 0) : l.filter (fun q => 0 < q.2) = [] := by
  induction l with
  | nil => rfl
  | cons q t ih =>
    rw [listMaxVal_cons] at h
    have hq : q.2 = 0 := by omega
    have hL : listMaxVal t = 0 := by omega
    simp [List.filter_cons, hq, ih hL]

theorem listMaxVal_filter_pos {l : List (List Char × Nat)}
    (h : listMaxVal l ≠ 0) :
    listMaxVal (l.filter (fun q => 0 < q.2)) = listMaxVal l := by
  induction l with
  | nil => exact absurd rfl h
  | cons q t ih =>
    rw [listMaxVal_cons]
    by_cases hq : 0 < q.2
    · rw [List.filter_cons_of_pos (by simpa using hq), listMaxVal_cons]
      by_cases hL : listMaxVal t = 0
      · rw [filter_pos_nil_of_max_zero hL, hL, listMaxVal_nil]
      · rw [ih hL]
    · have hq0 : q.2 = 0 := by omega
      rw [List.filter_cons_of_neg (by simp [hq0])]
      rw [listMaxVal_cons] at h
      have hL : listMaxVal t ≠ 0 := by omega
      rw [ih hL, hq0]
      omega

theorem find?_filter_pos {l : List (List Char × Nat)} {M : Nat} (hM : M ≠ 0) :
    (l.filter (fun q => 0 < q.2)).find? (fun p => p.2 == M) =
      l.find? (fun p => p.2 == M) := by
  induction l with
  | nil => rfl
  | cons q t ih =>
    by_cases hq : 0 < q.2
    · rw [List.filter_cons_of_pos (by simpa using hq)]
      by_cases hqM : q.2 = M
      · rw [List.find?_cons_of_pos _ (by simp [hqM]),
          List.find?_cons_of_pos _ (by simp [hqM])]
      · rw [List.find?_cons_of_neg _ (by simp [hqM]),
          List.find?_cons_of_neg _ (by simp [hqM]), ih]
    · have hq0 : q.2 = 0 := by omega
      rw [List.filter_cons_of_neg (by simp [hq0])]
      rw [List.find?_cons_of_neg _ (by simp [hq0]; omega), ih]

theorem selectMax_eq_find :
    ∀ (l : List (List Char × Nat)) (k : List Char) (v : Nat),
      List.find? (fun p => p.2 == listMaxVal ((k, v) :: l)) ((k, v) :: l) =
        some (selectMax k v l, listMaxVal ((k, v) :: l)) := by
  intro l
  induction l with
  | nil =>
    intro k v
    rw [listMaxVal_cons, listMaxVal_nil, Nat.max_zero]
    rw [List.find?_cons_of_pos _ (by simp)]
    rfl
  | cons q t ih =>
    intro k v
    obtain ⟨k2, v2⟩ := q
    by_cases hv2 : v2 > v
    · have hsel : selectMax k v ((k2, v2) :: t) = selectMax k2 v2 t := by
        simp [selectMax, hv2]
      have hM : listMaxVal ((k, v) :: (k2, v2) :: t) =
          listMaxVal ((k2, v2) :: t) := by
        simp only [listMaxVal_cons]
        omega
      rw [hM, hsel]
      rw [List.find?_cons_of_neg _ ?hne]
      case hne =>
        simp only [listMaxVal_cons]
        have h1 := Nat.le_max_left v2 (listMaxVal t)
        simp only [beq_iff_eq]
        omega
      exact ih k2 v2
    · have hsel : selectMax k v ((k2, v2) :: t) = selectMax k v t := by
        simp [selectMax, hv2]
      have hM : listMaxVal ((k, v) :: (k2, v2) :: t) =
          listMaxVal ((k, v) :: t) := by
        simp only [listMaxVal_cons]
        omega
      rw [hM, hsel]
      have hIH := ih k v
      by_cases hvM : v = listMaxVal ((k, v) :: t)
      · rw [List.find?_cons_of_pos _ (by simp only [beq_iff_eq]; exact hvM)]
        rw [List.find?_cons_of_pos _ (by simp only [beq_iff_eq]; exact hvM)] at hIH
        exact hIH
      · have hvle : v ≤ listMaxVal ((k, v) :: t) := by
          rw [listMaxVal_cons]
          exact Nat.le_max_left _ _
        have hv2M : v2 ≠ listMaxVal ((k, v) :: t) := by omega
        rw [List.find?_cons_of_neg _ (by simp only [beq_iff_eq]; exact hvM),
          List.find?_cons_of_neg _ (by simp only [beq_iff_eq]; exact hv2M)]
        rw [List.find?_cons_of_neg _ (by simp only [beq_iff_eq]; exact hvM)] at hIH
        exact hIH

theorem filterMap_scores (lower : List Char) :
    ∀ (l : List (List Char × List (List Char))),
      l.filterMap (fun p =>
        let s := keywordScore p.2 lower
        if s > 0 then some (p.1, s) else none) =
      (l.map (fun p => (p.1, keywordScore p.2 lower))).filter
        (fun q => 0 < q.2) := by
  intro l
  induction l with
  | nil => rfl
  | cons p t ih =>
    rw [List.filterMap_cons, List.map_cons, List.filter_cons]
    by_cases hp : 0 < keywordScore p.2 lower
    · simp [hp, ih]
    · have hp0 : keywordScore p.2 lower = 0 := by omega
      simp [hp0, ih]

theorem classify_eq_spec (input : List Char) :
    classifyQueryType input = classifyQueryTypeSpec input := by
  have hs := filterMap_scores (pyLower input) queryPatterns
  simp only [classifyQueryType, classifyQueryTypeSpec, hs]
  by_cases hM : listMaxVal
      (queryPatterns.map (fun p => (p.1, keywordScore p.2 (pyLower input)))) = 0
  · rw [filter_pos_nil_of_max_zero hM]
    simp [hM]
  · cases hfil : (queryPatterns.map
        (fun p => (p.1, keywordScore p.2 (pyLower input)))).filter
        (fun q => 0 < q.2) with
    | nil =>
      obtain ⟨p, hp, hpe⟩ := listMaxVal_attained hM
      have hppos : 0 < p.2 := by omega
      have hmem : p ∈ (queryPatterns.map
          (fun p => (p.1, keywordScore p.2 (pyLower input)))).filter
          (fun q => 0 < q.2) :=
        List.mem_filter.mpr ⟨hp, by simpa using hppos⟩
      rw [hfil] at hmem
      cases hmem
    | cons q rest =>
      obtain ⟨k, v⟩ := q
      have hfind := selectMax_eq_find rest k v
      have hMf : listMaxVal ((k, v) :: rest) = listMaxVal
          (queryPatterns.map (fun p => (p.1, keywordScore p.2 (pyLower input)))) := by
        rw [← hfil]
        exact listMaxVal_filter_pos hM
      rw [hMf, ← hfil, find?_filter_pos hM] at hfind
      simp [hM, hfind]

/-- C7: the classifier agrees everywhere with its specification reading —
score each of the 8 registered categories by the number of keywords
occurring in the lower-cased text, return the first-registered category
attaining the maximal score when it is positive, and the fallback
`general_query` category when every category scores 0.  On the concrete
input `부채비율 위험` (ratio score 2, fraud score 1) the score-2 ratio
category wins; a keyword-free input falls back to `general_query`. -/
theorem c7_classifier_matches_spec :
    (∀ input : List Char, classifyQueryType input = classifyQueryTypeSpec input) ∧
    classifyQueryType "부채비율 위험".data = "ratio_query".data ∧
    classifyQueryType "안녕".data = "general_query".data :=
  ⟨classify_eq_spec, by decide, by decide⟩

end AIAccounting
